import Mathlib

/-!
Shallow embedding of the connection-handler core and DNS resolver agent of
the arataga proxy, written from the sources
`acl_handler/handlers/data_transfer.cpp`,
`acl_handler/handlers/http/connect_method_handler.cpp` and the
`dns_resolver` agent translation unit.  Machine time points and durations
are modelled as natural numbers (steady-clock ticks); socket error codes as
a small inductive mirroring the asio codes the sources inspect.
-/

namespace Arataga

/-- Log levels used by the sources (spdlog levels, restricted to the ones
the spec fixes). -/
inductive log_level_t where
  | trace
  | debug
  | info
  | warn
  | critical
deriving DecidableEq, Repr

/-- The closed set of removal reasons (`remove_reason_t` in the sources). -/
inductive remove_reason_t where
  | normal_completion
  | current_operation_canceled
  | io_error
  | no_activity_for_too_long
  | unexpected_and_unsupported_case
  | unhandled_exception
deriving DecidableEq, Repr

/-- Asio error codes as far as the handler sources inspect them:
success, `asio::error::eof`, `asio::error::operation_aborted`, and any other
error code (carried as a numeric value). -/
inductive error_code_t where
  | success
  | eof
  | operation_aborted
  | other (code : Nat)
deriving DecidableEq, Repr

/-- `traffic_limiter_t::direction_t` from the sources. -/
inductive traffic_direction_t where
  | from_user
  | from_target
deriving DecidableEq, Repr

/-- IP versions (`ip_version_t` in the dns_resolver sources). -/
inductive ip_version_t where
  | ip_v4
  | ip_v6
deriving DecidableEq, Repr

/-- IP addresses, abstracted to their family plus an opaque numeric value;
the sources only ever inspect the family and pass addresses around. -/
inductive address_t where
  | v4 (a : Nat)
  | v6 (a : Nat)
deriving DecidableEq, Repr

/-- `direction_state_t` from data_transfer.cpp: per-direction relay state.
The byte buffer itself is not modelled (only its valid prefix length
`m_data_size`); the referenced socket is modelled by its open/closed flag. -/
structure direction_state_t where
  m_name : String
  m_data_size : Nat
  m_traffic_direction : traffic_direction_t
  m_is_alive : Bool
  m_is_traffic_limit_exceeded : Bool
  m_channel_is_open : Bool
deriving DecidableEq, Repr

/-- What `data_transfer_handler_t::on_read_result` does after its case
analysis: remove the handler with a reason, or store the read size and
initiate the write into the opposite direction. -/
inductive read_action_t where
  | remove_handler (reason : remove_reason_t)
  | initiate_write (data_size : Nat)
deriving DecidableEq, Repr

/-- Result of one `on_read_result` invocation: the source direction state
after the call, the level of the log record emitted (if any), and the
action taken. -/
structure read_result_t where
  src_after : direction_state_t
  logged : Option log_level_t
  action : read_action_t
deriving DecidableEq, Repr

/-- `data_transfer_handler_t::on_read_result` from data_transfer.cpp.
On success it records `m_data_size := bytes_transferred` and initiates the
write to the opposite direction (the `m_last_read_at` update is modelled at
the handler level).  On error it marks the direction dead and chooses the
removal reason: eof gives normal_completion; operation_aborted gives
current_operation_canceled; any other error gives io_error with a debug log
when the source channel is still open, and current_operation_canceled when
the channel is already closed. -/
def data_transfer_handler_t.on_read_result
    (src : direction_state_t) (ec : error_code_t) (bytes_transferred : Nat) :
    read_result_t :=
  match ec with
  | .success =>
      { src_after := { src with m_data_size := bytes_transferred },
        logged := none,
        action := .initiate_write bytes_transferred }
  | .eof =>
      { src_after := { src with m_is_alive := false },
        logged := none,
        action := .remove_handler .normal_completion }
  | .operation_aborted =>
      { src_after := { src with m_is_alive := false },
        logged := none,
        action := .remove_handler .current_operation_canceled }
  | .other _ =>
      if src.m_channel_is_open then
        { src_after := { src with m_is_alive := false },
          logged := some .debug,
          action := .remove_handler .io_error }
      else
        { src_after := { src with m_is_alive := false },
          logged := none,
          action := .remove_handler .current_operation_canceled }

/-- Action taken by `on_write_result`: remove the handler, or initiate the
next read on the direction whose name is carried. -/
inductive write_action_t where
  | remove_handler_on_write (reason : remove_reason_t)
  | initiate_read (direction_name : String)
deriving DecidableEq, Repr

/-- Result of one `on_write_result` invocation. -/
structure write_result_t where
  logged : Option log_level_t
  action : write_action_t
deriving DecidableEq, Repr

/-- `data_transfer_handler_t::on_write_result` from data_transfer.cpp.
On a write error the handler is removed through
`log_and_remove_connection_on_io_error` (reason io_error; the log level of
that base-class helper is not part of the sources under verification and is
modelled from the spec as debug).  Without an error, a mismatch between
`src_dir.m_data_size` and `bytes_transferred` removes the handler with
io_error at critical level; otherwise the next read is initiated on the
same source direction. -/
def data_transfer_handler_t.on_write_result
    (src : direction_state_t) (ec : error_code_t) (bytes_transferred : Nat) :
    write_result_t :=
  match ec with
  | .success =>
      if src.m_data_size ≠ bytes_transferred then
        { logged := some .critical,
          action := .remove_handler_on_write .io_error }
      else
        { logged := none, action := .initiate_read src.m_name }
  | _ =>
      { logged := some .debug,
        action := .remove_handler_on_write .io_error }

/-- `data_transfer_handler_t::initiate_async_read_for_direction` from
data_transfer.cpp.  The traffic limiter is modelled as a function from
direction and requested size to granted capacity
(`reserve_read_portion`).  The second component is the async read issued:
`none` when the traffic limit is exceeded, `some cap` a single read of at
most `cap` bytes into the direction buffer. -/
def data_transfer_handler_t.initiate_async_read_for_direction
    (limiter : traffic_direction_t → Nat → Nat)
    (io_chunk_size : Nat) (src : direction_state_t) :
    direction_state_t × Option Nat :=
  let reserved_capacity := limiter src.m_traffic_direction io_chunk_size
  let src1 :=
    { src with m_is_traffic_limit_exceeded := 0 == reserved_capacity }
  if src1.m_is_traffic_limit_exceeded then
    (src1, none)
  else
    (src1, some reserved_capacity)

/-- `data_transfer_handler_t` state: the two directions, the configured
chunk size and the time of the last successful read. -/
structure data_transfer_handler_t where
  m_io_chunk_size : Nat
  m_user_end : direction_state_t
  m_target_end : direction_state_t
  m_last_read_at : Nat
deriving DecidableEq, Repr

/-- Result of `data_transfer_handler_t::on_timer_impl`: removal with a
reason and log level, or the updated handler together with the list of
async reads issued (direction name, maximal byte count). -/
inductive timer_result_t where
  | removed (reason : remove_reason_t) (level : log_level_t)
  | keep (h : data_transfer_handler_t) (reads : List (String × Nat))
deriving DecidableEq, Repr

/-- `data_transfer_handler_t::on_timer_impl` from data_transfer.cpp:
remove with unexpected_and_unsupported_case when both directions are dead;
remove with no_activity_for_too_long when
`m_last_read_at + idle_connection_timeout < now`; otherwise re-attempt the
read on every direction whose traffic-limit flag is set. -/
def data_transfer_handler_t.on_timer_impl
    (limiter : traffic_direction_t → Nat → Nat)
    (idle_connection_timeout now : Nat)
    (h : data_transfer_handler_t) : timer_result_t :=
  if !h.m_user_end.m_is_alive && !h.m_target_end.m_is_alive then
    .removed .unexpected_and_unsupported_case .warn
  else if h.m_last_read_at + idle_connection_timeout < now then
    .removed .no_activity_for_too_long .warn
  else
    let ur :=
      if h.m_user_end.m_is_traffic_limit_exceeded then
        data_transfer_handler_t.initiate_async_read_for_direction
          limiter h.m_io_chunk_size h.m_user_end
      else (h.m_user_end, none)
    let tr :=
      if h.m_target_end.m_is_traffic_limit_exceeded then
        data_transfer_handler_t.initiate_async_read_for_direction
          limiter h.m_io_chunk_size h.m_target_end
      else (h.m_target_end, none)
    .keep { h with m_user_end := ur.1, m_target_end := tr.1 }
      ((match ur.2 with
        | some n => [(ur.1.m_name, n)]
        | none => []) ++
       (match tr.2 with
        | some n => [(tr.1.m_name, n)]
        | none => []))

/-- `data_transfer_handler_t::ensure_traffic_limiter_not_null` from
data_transfer.cpp: raises `acl_handler_ex_t` on a null limiter.  The
limiter pointer is modelled as an `Option Unit`; raising is modelled with
`Except`. -/
def data_transfer_handler_t.ensure_traffic_limiter_not_null
    (value : Option Unit) : Except String Unit :=
  match value with
  | none =>
      .error "data_transfer_handler_t constructor: traffic_limiter parameter cannot be nullptr!"
  | some v => .ok v

/-- The `data_transfer_handler_t` constructor from data_transfer.cpp: the
only precondition it checks is the non-null traffic limiter;
`io_chunk_size` is taken from the configuration unchecked (it is a
`std::size_t`, so only 0 is a representable non-positive value).  Both
directions start alive, without data and without the traffic-limit flag. -/
def data_transfer_handler_t.construct
    (traffic_limiter : Option Unit) (io_chunk_size : Nat) (now : Nat) :
    Except String data_transfer_handler_t :=
  match data_transfer_handler_t.ensure_traffic_limiter_not_null traffic_limiter with
  | .error e => .error e
  | .ok _ =>
      .ok { m_io_chunk_size := io_chunk_size,
            m_user_end :=
              { m_name := "user-end", m_data_size := 0,
                m_traffic_direction := .from_user,
                m_is_alive := true, m_is_traffic_limit_exceeded := false,
                m_channel_is_open := true },
            m_target_end :=
              { m_name := "target-end", m_data_size := 0,
                m_traffic_direction := .from_target,
                m_is_alive := true, m_is_traffic_limit_exceeded := false,
                m_channel_is_open := true },
            m_last_read_at := now }

/-- `connect_method_handler_t::on_timer_impl` from
connect_method_handler.cpp: remove with no_activity_for_too_long and a
warning log when `m_created_at + idle_connection_timeout < now`, otherwise
do nothing. -/
def connect_method_handler_t.on_timer_impl
    (created_at idle_connection_timeout now : Nat) :
    Option (remove_reason_t × log_level_t) :=
  if created_at + idle_connection_timeout < now then
    some (.no_activity_for_too_long, .warn)
  else
    none

/-- `resolve_info_t` from the dns_resolver sources: the ordered address
list and the creation time point. -/
structure resolve_info_t where
  m_addresses : List address_t
  m_created_at : Nat
deriving DecidableEq, Repr

/-- Modelled from the spec: `resolve_info_t.is_outdated` is declared in a
header that is not among the sources; the spec defines outdated as
`now - created_at >= ttl`. -/
def resolve_info_t.is_outdated (info : resolve_info_t) (now ttl : Nat) : Bool :=
  ttl ≤ now - info.m_created_at

/-- Association-list lookup keyed by hostname, the embedding of
`std::map::find` used by `local_cache_t`. -/
def alist_lookup {β : Type} (key : String) :
    List (String × β) → Option β
  | [] => none
  | (k, v) :: rest => if k = key then some v else alist_lookup key rest

/-- Erasing every binding of a key, the embedding of `std::map::erase`
on a key that `std::map` keeps unique. -/
def alist_erase {β : Type} (key : String) :
    List (String × β) → List (String × β)
  | [] => []
  | (k, v) :: rest =>
    if k = key then alist_erase key rest
    else (k, v) :: alist_erase key rest

/-- Address family test used by the address-selection policy. -/
def address_matches_version (a : address_t) (v : ip_version_t) : Bool :=
  match a, v with
  | .v4 _, .ip_v4 => true
  | .v6 _, .ip_v6 => true
  | _, _ => false

/-- Modelled from the spec: `resolve_address_from_list` lives in
`resolve_address_from_list.hpp`, which is not among the sources; the spec
says it scans the stored sequence in order and returns the first element
whose family matches, and none when no element matches. -/
def resolve_address_from_list
    (addresses : List address_t) (v : ip_version_t) : Option address_t :=
  addresses.find? (fun a => address_matches_version a v)

/-- `local_cache_t` from the dns_resolver sources: hostname to
`resolve_info_t`.  `std::map` is embedded as an association list with
unique keys. -/
structure local_cache_t where
  m_data : List (String × resolve_info_t)
deriving DecidableEq, Repr

/-- `local_cache_t::resolve`: look the name up and apply
`resolve_address_from_list` to the stored addresses. -/
def local_cache_t.resolve
    (c : local_cache_t) (name : String) (ip_version : ip_version_t) :
    Option address_t :=
  match alist_lookup name c.m_data with
  | some info => resolve_address_from_list info.m_addresses ip_version
  | none => none

/-- The erase loop of `local_cache_t::remove_outdated_records`: drop every
entry that is outdated and count the drops, keeping the rest in order. -/
def remove_outdated_go (now ttl : Nat) :
    List (String × resolve_info_t) →
    List (String × resolve_info_t) × Nat
  | [] => ([], 0)
  | (n, info) :: rest =>
    let r := remove_outdated_go now ttl rest
    if info.is_outdated now ttl then (r.1, r.2 + 1)
    else ((n, info) :: r.1, r.2)

/-- `local_cache_t::remove_outdated_records`, returning the cache after the
sweep and the number of removed entries.  The current time point is an
explicit argument (`is_outdated` reads the steady clock in the sources). -/
def local_cache_t.remove_outdated_records
    (c : local_cache_t) (now ttl : Nat) : local_cache_t × Nat :=
  let r := remove_outdated_go now ttl c.m_data
  (⟨r.1⟩, r.2)

/-- The body of `local_cache_t::add_records`: `std::map::emplace` keeps an
existing entry (with its old `m_created_at`) and inserts a fresh
`resolve_info_t` carrying the current time otherwise; the subsequent loop
appends every result address to the entry the emplace returned. -/
def add_records_go (name : String) (results : List address_t) (now : Nat) :
    List (String × resolve_info_t) → List (String × resolve_info_t)
  | [] => [(name, { m_addresses := results, m_created_at := now })]
  | (n, info) :: rest =>
    if n = name then
      (n, { m_addresses := info.m_addresses ++ results,
            m_created_at := info.m_created_at }) :: rest
    else
      (n, info) :: add_records_go name results now rest

/-- `local_cache_t::add_records` from the dns_resolver sources. -/
def local_cache_t.add_records
    (c : local_cache_t) (name : String) (results : List address_t)
    (now : Nat) : local_cache_t :=
  ⟨add_records_go name results now c.m_data⟩

/-- `local_cache_t::clear`. -/
def local_cache_t.clear (_c : local_cache_t) : local_cache_t :=
  ⟨[]⟩

/-- `resolve_request_t` from the dns_resolver sources: reply destination
and completion token are opaque numbers. -/
structure resolve_request_t where
  m_req_id : Nat
  m_name : String
  m_ip_version : ip_version_t
  m_reply_to : Nat
  m_completion_token : Nat
deriving DecidableEq, Repr

/-- `forward::resolve_result_t`: success with an address or failure with a
description. -/
inductive resolve_result_t where
  | successful_resolve (address : address_t)
  | failed_resolve (description : String)
deriving DecidableEq, Repr

/-- `resolve_reply_t` sent back to the requester, carrying the original
request id and completion token unchanged. -/
structure resolve_reply_t where
  m_req_id : Nat
  m_completion_token : Nat
  m_result : resolve_result_t
deriving DecidableEq, Repr

/-- `make_error_description` from the dns_resolver sources formats the
error as message followed by the numeric code in parentheses; the message
text comes from the environment and is modelled as a fixed word. -/
def make_error_description (ec_value : Nat) : String :=
  "error(" ++ toString ec_value ++ ")"

/-- Modelled from the spec: `waiting_forward_requests.add_request` (its
container lives in a header that is not among the sources) appends the
request to the waiting list of its name and reports whether it is the
first waiter for that name. -/
def waiting_add_request (name : String) (req : resolve_request_t) :
    List (String × List resolve_request_t) →
    List (String × List resolve_request_t) × Bool
  | [] => ([(name, [req])], true)
  | (n, reqs) :: rest =>
    if n = name then ((n, reqs ++ [req]) :: rest, false)
    else
      let r := waiting_add_request name req rest
      ((n, reqs) :: r.1, r.2)

/-- Modelled from the spec:
`waiting_forward_requests.handle_waiting_requests` drains the waiting list
of the name, answering every queued waiter in arrival order with the given
reply function, and removes the name from the list. -/
def waiting_handle_requests (name : String)
    (mk : resolve_request_t → resolve_reply_t)
    (w : List (String × List resolve_request_t)) :
    List (String × List resolve_request_t) × List resolve_reply_t :=
  match alist_lookup name w with
  | some reqs => (alist_erase name w, reqs.map mk)
  | none => (w, [])

/-- Modelled from the spec: the per-waiter reply on a successful
completion selects the first result address matching the waiter's IP
version, and fails with a fixed description when no family matches. -/
def reply_for_request (results : List address_t)
    (req : resolve_request_t) : resolve_reply_t :=
  match resolve_address_from_list results req.m_ip_version with
  | some address =>
      { m_req_id := req.m_req_id,
        m_completion_token := req.m_completion_token,
        m_result := .successful_resolve address }
  | none =>
      { m_req_id := req.m_req_id,
        m_completion_token := req.m_completion_token,
        m_result := .failed_resolve "no matching address family" }

/-- The statistics counters of the agent. -/
structure dns_stats_t where
  m_dns_cache_hits : Nat
  m_dns_successful_lookups : Nat
  m_dns_failed_lookups : Nat
deriving DecidableEq, Repr

/-- The state of `a_dns_resolver_t` relevant to resolution: the cache, the
waiting list, the statistics, and the bookkeeping list of hostnames whose
`async_resolve` has been issued and has not completed yet (the in-flight
resolutions; in the sources this set is implicit in the pending asio
operations). -/
structure a_dns_resolver_t where
  m_cache : local_cache_t
  m_waiting_forward_requests : List (String × List resolve_request_t)
  m_in_flight : List String
  m_dns_stats : dns_stats_t
deriving DecidableEq, Repr

/-- `a_dns_resolver_t::add_to_waiting_and_resolve`: append the request to
the waiting list; when it is the first waiter, issue the system resolution
(the name joins `m_in_flight`). -/
def a_dns_resolver_t.add_to_waiting_and_resolve
    (s : a_dns_resolver_t) (req : resolve_request_t) :
    a_dns_resolver_t × List resolve_reply_t :=
  let r := waiting_add_request req.m_name req s.m_waiting_forward_requests
  if r.2 then
    ({ s with m_waiting_forward_requests := r.1,
              m_in_flight := req.m_name :: s.m_in_flight }, [])
  else
    ({ s with m_waiting_forward_requests := r.1 }, [])

/-- `a_dns_resolver_t::on_resolve`: answer from the cache on a hit
(incrementing the cache-hit counter), otherwise queue the request and
possibly start a resolution. -/
def a_dns_resolver_t.on_resolve
    (s : a_dns_resolver_t) (msg : resolve_request_t) :
    a_dns_resolver_t × List resolve_reply_t :=
  match s.m_cache.resolve msg.m_name msg.m_ip_version with
  | some address =>
      ({ s with m_dns_stats :=
            { s.m_dns_stats with
                m_dns_cache_hits := s.m_dns_stats.m_dns_cache_hits + 1 } },
       [{ m_req_id := msg.m_req_id,
          m_completion_token := msg.m_completion_token,
          m_result := .successful_resolve address }])
  | none => s.add_to_waiting_and_resolve msg

/-- `a_dns_resolver_t::handle_resolve_result`: on success bump the
successful-lookup counter, insert the results into the cache and drain the
waiting list answering each waiter through the address-selection policy;
on failure bump the failed-lookup counter and drain the waiting list with
the failure description.  Either way the resolution for the name is no
longer in flight. -/
def a_dns_resolver_t.handle_resolve_result
    (s : a_dns_resolver_t) (name : String)
    (outcome : Except Nat (List address_t)) (now : Nat) :
    a_dns_resolver_t × List resolve_reply_t :=
  match outcome with
  | .ok results =>
    let r := waiting_handle_requests name (reply_for_request results)
        s.m_waiting_forward_requests
    ({ s with
        m_cache := s.m_cache.add_records name results now,
        m_waiting_forward_requests := r.1,
        m_in_flight := s.m_in_flight.filter (fun n => n != name),
        m_dns_stats :=
          { s.m_dns_stats with
              m_dns_successful_lookups :=
                s.m_dns_stats.m_dns_successful_lookups + 1 } }, r.2)
  | .error ec_value =>
    let r := waiting_handle_requests name
        (fun req =>
          { m_req_id := req.m_req_id,
            m_completion_token := req.m_completion_token,
            m_result := .failed_resolve (make_error_description ec_value) })
        s.m_waiting_forward_requests
    ({ s with
        m_waiting_forward_requests := r.1,
        m_in_flight := s.m_in_flight.filter (fun n => n != name),
        m_dns_stats :=
          { s.m_dns_stats with
              m_dns_failed_lookups :=
                s.m_dns_stats.m_dns_failed_lookups + 1 } }, r.2)

/-- The two message kinds of the agent that touch the waiting list: an
arriving `resolve_request_t` and the completion callback of an issued
`async_resolve`. -/
inductive dns_event_t where
  | resolve_request_ev (req : resolve_request_t)
  | resolve_completion_ev (name : String)
      (outcome : Except Nat (List address_t)) (now : Nat)
deriving Repr

/-- One dispatcher step of the agent. -/
def dns_step (s : a_dns_resolver_t) (e : dns_event_t) :
    a_dns_resolver_t × List resolve_reply_t :=
  match e with
  | .resolve_request_ev req => s.on_resolve req
  | .resolve_completion_ev name outcome now =>
      s.handle_resolve_result name outcome now

/-- The per-waiter reply a completion produces, split by success and
failure exactly as `handle_resolve_result` does. -/
def dns_answer_fn (outcome : Except Nat (List address_t)) :
    resolve_request_t → resolve_reply_t :=
  match outcome with
  | .ok results => reply_for_request results
  | .error ec_value =>
      fun req =>
        { m_req_id := req.m_req_id,
          m_completion_token := req.m_completion_token,
          m_result := .failed_resolve (make_error_description ec_value) }

/-- The coalescing invariant of the agent: the in-flight list holds no
hostname twice, and a hostname has an outstanding system resolution
exactly when it has a waiting-list entry. -/
def waiting_inv (s : a_dns_resolver_t) : Prop :=
  s.m_in_flight.Nodup ∧
  ∀ name : String,
    name ∈ s.m_in_flight ↔
      (alist_lookup name s.m_waiting_forward_requests).isSome = true

/-- The cache invariant claimed by the spec: no cached entry has an empty
address sequence. -/
def cache_no_empty_addresses (c : local_cache_t) : Prop :=
  ∀ p ∈ c.m_data, p.2.m_addresses ≠ []

/-- Rewrites every cache entry's creation time through an arbitrary
function, leaving names and addresses unchanged; used to state that cache
lookups ignore entry age. -/
def set_created_at (f : String → Nat → Nat) (c : local_cache_t) :
    local_cache_t :=
  ⟨c.m_data.map (fun p =>
     (p.1, { m_addresses := p.2.m_addresses,
             m_created_at := f p.1 p.2.m_created_at }))⟩

/-! Helper lemmas about the cache sweep. -/

theorem remove_outdated_go_not_outdated (now ttl : Nat)
    (l : List (String × resolve_info_t)) :
    ∀ p ∈ (remove_outdated_go now ttl l).1,
      p.2.is_outdated now ttl = false := by
  induction l with
  | nil => simp [remove_outdated_go]
  | cons hd tl ih =>
    obtain ⟨n, info⟩ := hd
    intro p hp
    simp only [remove_outdated_go] at hp
    by_cases h : info.is_outdated now ttl
    · rw [if_pos h] at hp
      exact ih p hp
    · rw [if_neg h] at hp
      rcases List.mem_cons.mp hp with h1 | h2
      · subst h1
        exact Bool.eq_false_iff.mpr h
      · exact ih p h2

theorem remove_outdated_go_all_fresh (now ttl : Nat)
    (l : List (String × resolve_info_t))
    (h : ∀ p ∈ l, p.2.is_outdated now ttl = false) :
    remove_outdated_go now ttl l = (l, 0) := by
  induction l with
  | nil => rfl
  | cons hd tl ih =>
    obtain ⟨n, info⟩ := hd
    have h1 : info.is_outdated now ttl = false :=
      h (n, info) (List.mem_cons_self _ _)
    have h2 : remove_outdated_go now ttl tl = (tl, 0) :=
      ih (fun p hp => h p (List.mem_cons_of_mem _ hp))
    simp [remove_outdated_go, h1, h2]

/-- C9: for every DNS cache state and every ttl, a second
`remove_outdated_records(ttl)` invocation right after a first one, with no
intervening insertions, removes nothing and returns 0. -/
theorem remove_outdated_records_second_pass_zero
    (c : local_cache_t) (now ttl : Nat) :
    (((c.remove_outdated_records now ttl).1).remove_outdated_records
        now ttl).2 = 0 := by
  simp only [local_cache_t.remove_outdated_records]
  rw [remove_outdated_go_all_fresh now ttl _
        (remove_outdated_go_not_outdated now ttl c.m_data)]

/-- C1: the removal-reason case analysis of `on_read_result` on a read
error: eof maps to normal_completion, operation_aborted to
current_operation_canceled, any other error to io_error with a debug log
while the source channel is open, and to current_operation_canceled when
the channel is already closed. -/
theorem on_read_result_error_case_analysis
    (src : direction_state_t) (bytes code : Nat) :
    (data_transfer_handler_t.on_read_result src .eof bytes).action
        = .remove_handler .normal_completion
    ∧ (data_transfer_handler_t.on_read_result src .operation_aborted
          bytes).action = .remove_handler .current_operation_canceled
    ∧ (data_transfer_handler_t.on_read_result
          { src with m_channel_is_open := true } (.other code) bytes).action
        = .remove_handler .io_error
    ∧ (data_transfer_handler_t.on_read_result
          { src with m_channel_is_open := true } (.other code) bytes).logged
        = some .debug
    ∧ (data_transfer_handler_t.on_read_result
          { src with m_channel_is_open := false } (.other code) bytes).action
        = .remove_handler .current_operation_canceled := by
  refine ⟨rfl, rfl, ?_, ?_, ?_⟩ <;>
    simp [data_transfer_handler_t.on_read_result]

/-- C3: on a write completion without error, matching byte counts lead to
the next read on the same source direction; any discrepancy removes the
handler with io_error at critical level; a write error removes the handler
with io_error. -/
theorem on_write_result_spec (src : direction_state_t) (bytes : Nat) :
    (data_transfer_handler_t.on_write_result src .success
        src.m_data_size).action = .initiate_read src.m_name
    ∧ (src.m_data_size ≠ bytes →
        (data_transfer_handler_t.on_write_result src .success bytes).action
            = .remove_handler_on_write .io_error
        ∧ (data_transfer_handler_t.on_write_result src .success bytes).logged
            = some .critical)
    ∧ (∀ ec : error_code_t, ec ≠ .success →
        (data_transfer_handler_t.on_write_result src ec bytes).action
            = .remove_handler_on_write .io_error) := by
  refine ⟨?_, ?_, ?_⟩
  · simp [data_transfer_handler_t.on_write_result]
  · intro h
    constructor <;> simp [data_transfer_handler_t.on_write_result, h]
  · intro ec hec
    cases ec with
    | success => exact absurd rfl hec
    | eof => rfl
    | operation_aborted => rfl
    | other code => rfl

theorem on_write_result_spec_witness :
    (data_transfer_handler_t.on_write_result
        { m_name := "user-end", m_data_size := 4,
          m_traffic_direction := .from_user, m_is_alive := true,
          m_is_traffic_limit_exceeded := false, m_channel_is_open := true }
        .success 4).action = .initiate_read "user-end"
    ∧ (data_transfer_handler_t.on_write_result
        { m_name := "user-end", m_data_size := 4,
          m_traffic_direction := .from_user, m_is_alive := true,
          m_is_traffic_limit_exceeded := false, m_channel_is_open := true }
        .success 3).action = .remove_handler_on_write .io_error
    ∧ (data_transfer_handler_t.on_write_result
        { m_name := "user-end", m_data_size := 4,
          m_traffic_direction := .from_user, m_is_alive := true,
          m_is_traffic_limit_exceeded := false, m_channel_is_open := true }
        .success 3).logged = some .critical
    ∧ (data_transfer_handler_t.on_write_result
        { m_name := "user-end", m_data_size := 4,
          m_traffic_direction := .from_user, m_is_alive := true,
          m_is_traffic_limit_exceeded := false, m_channel_is_open := true }
        .eof 3).action = .remove_handler_on_write .io_error := by
  have h := on_write_result_spec
      { m_name := "user-end", m_data_size := 4,
        m_traffic_direction := .from_user, m_is_alive := true,
        m_is_traffic_limit_exceeded := false, m_channel_is_open := true } 3
  exact ⟨h.1, (h.2.1 (by decide)).1, (h.2.1 (by decide)).2,
         h.2.2 .eof (by decide)⟩

/-- C4: a zero capacity from the traffic limiter sets the direction's
traffic-limit flag and issues no read; a positive capacity clears the flag
and issues exactly one read of at most that capacity; and a timer tick
that finds the flags set while the limiter still grants nothing keeps the
flags set and issues no read. -/
theorem initiate_read_traffic_limit_spec
    (src u t : direction_state_t) (io_chunk_size c idle now : Nat) :
    data_transfer_handler_t.initiate_async_read_for_direction
        (fun _ _ => 0) io_chunk_size src
      = ({ src with m_is_traffic_limit_exceeded := true }, none)
    ∧ data_transfer_handler_t.initiate_async_read_for_direction
        (fun _ _ => c + 1) io_chunk_size src
      = ({ src with m_is_traffic_limit_exceeded := false }, some (c + 1))
    ∧ data_transfer_handler_t.on_timer_impl (fun _ _ => 0) idle now
        { m_io_chunk_size := io_chunk_size,
          m_user_end :=
            { u with m_is_alive := true,
                     m_is_traffic_limit_exceeded := true },
          m_target_end :=
            { t with m_is_traffic_limit_exceeded := true },
          m_last_read_at := now }
      = .keep
          { m_io_chunk_size := io_chunk_size,
            m_user_end :=
              { u with m_is_alive := true,
                       m_is_traffic_limit_exceeded := true },
            m_target_end :=
              { t with m_is_traffic_limit_exceeded := true },
            m_last_read_at := now }
          [] := by
  have hlt : ¬ (now + idle < now) := by omega
  refine ⟨?_, ?_, ?_⟩
  · simp [data_transfer_handler_t.initiate_async_read_for_direction]
  · simp [data_transfer_handler_t.initiate_async_read_for_direction]
  · simp [data_transfer_handler_t.on_timer_impl,
          data_transfer_handler_t.initiate_async_read_for_direction, hlt]

/-- C5 counterexample: at the exact moment when `now - created_at` equals
the idle timeout, the claim requires removal, but `on_timer_impl` does
nothing. -/
theorem connect_on_timer_at_exact_timeout :
    connect_method_handler_t.on_timer_impl 0 5 5 = none ∧ 5 - 0 ≥ 5 := by
  exact ⟨rfl, by decide⟩

/-- C5 amended: the CONNECT-method handler's on_timer removes the handler
with no_activity_for_too_long and a warning log exactly when
`created_at + idle_connection_timeout < now` (strictly), that is when
`now - created_at` strictly exceeds the timeout; otherwise it is a
no-op. -/
theorem connect_on_timer_strict_boundary
    (created_at idle_connection_timeout now : Nat) :
    (connect_method_handler_t.on_timer_impl created_at
        idle_connection_timeout now
      = some (.no_activity_for_too_long, .warn)
      ↔ created_at + idle_connection_timeout < now)
    ∧ (connect_method_handler_t.on_timer_impl created_at
        idle_connection_timeout now = none
      ↔ ¬ created_at + idle_connection_timeout < now) := by
  unfold connect_method_handler_t.on_timer_impl
  by_cases h : created_at + idle_connection_timeout < now
  · simp [h]
  · simp [h]

/-- C8 counterexample: with a non-null traffic limiter and
`io_chunk_size = 0` (the only representable non-positive value of a
`std::size_t`), construction succeeds — no precondition on the chunk size
is checked. -/
theorem data_transfer_ctor_accepts_zero_chunk :
    (data_transfer_handler_t.construct (some ()) 0 0).isOk = true := by
  rfl

/-- C8 amended: the constructor fails synchronously exactly on a null
traffic limiter; `io_chunk_size` is not validated, and any value
(including zero) yields a handler object. -/
theorem data_transfer_ctor_checks (io_chunk_size now : Nat) :
    data_transfer_handler_t.construct none io_chunk_size now
      = .error "data_transfer_handler_t constructor: traffic_limiter parameter cannot be nullptr!"
    ∧ (data_transfer_handler_t.construct (some ()) io_chunk_size now).isOk
      = true := by
  exact ⟨rfl, rfl⟩

/-! Helper lemmas about association-list lookup, insertion and sweep. -/

theorem alist_lookup_eq_none_of_not_mem_keys {β : Type} (name : String)
    (l : List (String × β)) (h : name ∉ l.map Prod.fst) :
    alist_lookup name l = none := by
  induction l with
  | nil => rfl
  | cons hd tl ih =>
    obtain ⟨k, v⟩ := hd
    simp only [List.map_cons, List.mem_cons] at h
    push_neg at h
    have hk : ¬ k = name := fun he => h.1 he.symm
    rw [alist_lookup, if_neg hk]
    exact ih h.2

theorem alist_lookup_none_remove_outdated (now ttl : Nat) (name : String)
    (l : List (String × resolve_info_t))
    (h : alist_lookup name l = none) :
    alist_lookup name (remove_outdated_go now ttl l).1 = none := by
  induction l with
  | nil => rfl
  | cons hd tl ih =>
    obtain ⟨k, v⟩ := hd
    by_cases hk : k = name
    · rw [alist_lookup, if_pos hk] at h
      exact absurd h (by simp)
    · rw [alist_lookup, if_neg hk] at h
      simp only [remove_outdated_go]
      by_cases hout : v.is_outdated now ttl
      · rw [if_pos hout]
        exact ih h
      · rw [if_neg hout]
        rw [alist_lookup, if_neg hk]
        exact ih h

theorem alist_lookup_remove_outdated_removes (now ttl : Nat)
    (name : String) (info : resolve_info_t)
    (l : List (String × resolve_info_t))
    (hnodup : (l.map Prod.fst).Nodup)
    (hfound : alist_lookup name l = some info)
    (hout : info.is_outdated now ttl = true) :
    alist_lookup name (remove_outdated_go now ttl l).1 = none := by
  induction l with
  | nil => exact absurd hfound (by simp [alist_lookup])
  | cons hd tl ih =>
    obtain ⟨k, v⟩ := hd
    simp only [List.map_cons, List.nodup_cons] at hnodup
    by_cases hk : k = name
    · rw [alist_lookup, if_pos hk] at hfound
      have hv : v = info := Option.some_injective _ hfound
      subst hv
      simp only [remove_outdated_go, if_pos hout]
      apply alist_lookup_none_remove_outdated
      apply alist_lookup_eq_none_of_not_mem_keys
      rw [← hk]
      exact hnodup.1
    · rw [alist_lookup, if_neg hk] at hfound
      simp only [remove_outdated_go]
      by_cases hvout : v.is_outdated now ttl
      · rw [if_pos hvout]
        exact ih hnodup.2 hfound
      · rw [if_neg hvout]
        rw [alist_lookup, if_neg hk]
        exact ih hnodup.2 hfound

theorem add_records_go_lookup_found (name : String)
    (results : List address_t) (now : Nat) (info : resolve_info_t) :
    ∀ l : List (String × resolve_info_t),
      alist_lookup name l = some info →
      alist_lookup name (add_records_go name results now l)
        = some { m_addresses := info.m_addresses ++ results,
                 m_created_at := info.m_created_at } := by
  intro l
  induction l with
  | nil => intro h; exact absurd h (by simp [alist_lookup])
  | cons hd tl ih =>
    obtain ⟨k, v⟩ := hd
    intro h
    by_cases hk : k = name
    · rw [alist_lookup, if_pos hk] at h
      have hv : v = info := Option.some_injective _ h
      subst hv
      simp only [add_records_go, if_pos hk]
      rw [alist_lookup, if_pos hk]
    · rw [alist_lookup, if_neg hk] at h
      simp only [add_records_go, if_neg hk]
      rw [alist_lookup, if_neg hk]
      exact ih h

theorem add_records_go_preserves_nonempty (name : String)
    (results : List address_t) (now : Nat) (hres : results ≠ []) :
    ∀ l : List (String × resolve_info_t),
      (∀ p ∈ l, p.2.m_addresses ≠ []) →
      ∀ p ∈ add_records_go name results now l, p.2.m_addresses ≠ [] := by
  intro l
  induction l with
  | nil =>
    intro _ p hp
    simp only [add_records_go, List.mem_singleton] at hp
    subst hp
    exact hres
  | cons hd tl ih =>
    obtain ⟨k, v⟩ := hd
    intro hinv p hp
    by_cases hk : k = name
    · simp only [add_records_go, if_pos hk, List.mem_cons] at hp
      rcases hp with h1 | h2
      · subst h1
        intro he
        exact hres (List.append_eq_nil.mp he).2
      · exact hinv p (List.mem_cons_of_mem _ h2)
    · simp only [add_records_go, if_neg hk, List.mem_cons] at hp
      rcases hp with h1 | h2
      · subst h1
        exact hinv (k, v) (List.mem_cons_self _ _)
      · exact ih (fun q hq => hinv q (List.mem_cons_of_mem _ hq)) p h2

theorem remove_outdated_go_subset (now ttl : Nat)
    (l : List (String × resolve_info_t)) :
    ∀ p ∈ (remove_outdated_go now ttl l).1, p ∈ l := by
  induction l with
  | nil => simp [remove_outdated_go]
  | cons hd tl ih =>
    obtain ⟨k, v⟩ := hd
    intro p hp
    simp only [remove_outdated_go] at hp
    by_cases hout : v.is_outdated now ttl
    · rw [if_pos hout] at hp
      exact List.mem_cons_of_mem _ (ih p hp)
    · rw [if_neg hout] at hp
      rcases List.mem_cons.mp hp with h1 | h2
      · exact h1 ▸ List.mem_cons_self _ _
      · exact List.mem_cons_of_mem _ (ih p h2)

theorem alist_lookup_map_created_at (f : String → Nat → Nat)
    (name : String) (l : List (String × resolve_info_t)) :
    alist_lookup name
        (l.map (fun p =>
          (p.1, ({ m_addresses := p.2.m_addresses,
                   m_created_at := f p.1 p.2.m_created_at }
                 : resolve_info_t))))
      = (alist_lookup name l).map
          (fun info =>
            { m_addresses := info.m_addresses,
              m_created_at := f name info.m_created_at }) := by
  induction l with
  | nil => rfl
  | cons hd tl ih =>
    obtain ⟨k, v⟩ := hd
    by_cases hk : k = name
    · subst hk
      simp [alist_lookup]
    · simp only [List.map_cons, alist_lookup, if_neg hk]
      exact ih

/-- C6 counterexample: adding records for a hostname that is already
cached appends the new addresses to the old ones and keeps the old
creation time — the stored sequence is neither the earlier result (the new
one discarded) nor the new result (overwrite). -/
theorem add_records_duplicate_counterexample :
    (local_cache_t.add_records
        ⟨[("example.test",
           { m_addresses := [address_t.v4 1], m_created_at := 0 })]⟩
        "example.test" [address_t.v4 2] 10).m_data
      = [("example.test",
          { m_addresses := [address_t.v4 1, address_t.v4 2],
            m_created_at := 0 })]
    ∧ [address_t.v4 1, address_t.v4 2] ≠ [address_t.v4 1]
    ∧ [address_t.v4 1, address_t.v4 2] ≠ [address_t.v4 2] := by
  exact ⟨by decide, by decide, by decide⟩

/-- C6 amended: when `add_records` is called for a hostname already
present in the cache, the entry keeps its original creation time and the
new addresses are appended after the existing ones, so the stored sequence
is the concatenation of the previous content with the new resolver
result. -/
theorem add_records_duplicate_appends (c : local_cache_t) (name : String)
    (results : List address_t) (now : Nat) (info : resolve_info_t)
    (h : alist_lookup name c.m_data = some info) :
    alist_lookup name (c.add_records name results now).m_data
      = some { m_addresses := info.m_addresses ++ results,
               m_created_at := info.m_created_at } :=
  add_records_go_lookup_found name results now info c.m_data h

theorem add_records_duplicate_appends_witness :
    alist_lookup "example.test"
        (local_cache_t.add_records
          ⟨[("example.test",
             { m_addresses := [address_t.v4 1], m_created_at := 0 })]⟩
          "example.test" [address_t.v4 2] 10).m_data
      = some { m_addresses := [address_t.v4 1, address_t.v4 2],
               m_created_at := 0 } := by
  exact add_records_duplicate_appends
    ⟨[("example.test",
       { m_addresses := [address_t.v4 1], m_created_at := 0 })]⟩
    "example.test" [address_t.v4 2] 10
    { m_addresses := [address_t.v4 1], m_created_at := 0 }
    (by decide)

/-- C7 counterexample: `add_records` called with an empty resolver result
set caches an entry whose address list is empty, breaking the claimed
invariant. -/
theorem add_records_empty_results_counterexample :
    (local_cache_t.add_records ⟨[]⟩ "example.test" [] 5).m_data
      = [("example.test", { m_addresses := [], m_created_at := 5 })]
    ∧ ¬ cache_no_empty_addresses
        (local_cache_t.add_records ⟨[]⟩ "example.test" [] 5) := by
  constructor
  · rfl
  · intro h
    exact h ("example.test", { m_addresses := [], m_created_at := 5 })
      (by simp [local_cache_t.add_records, add_records_go]) rfl

/-- C7 amended: `add_records` preserves the no-empty-address-list
invariant for every non-empty resolver result set, and the remaining cache
operations (the outdated sweep and clear) preserve it unconditionally; an
empty result set, however, creates an entry with an empty address list. -/
theorem cache_operations_preserve_nonempty (c : local_cache_t)
    (name : String) (results : List address_t) (now now2 ttl : Nat)
    (hinv : cache_no_empty_addresses c) (hres : results ≠ []) :
    cache_no_empty_addresses (c.add_records name results now)
    ∧ cache_no_empty_addresses ((c.remove_outdated_records now2 ttl).1)
    ∧ cache_no_empty_addresses c.clear := by
  refine ⟨?_, ?_, ?_⟩
  · exact add_records_go_preserves_nonempty name results now hres
      c.m_data hinv
  · intro p hp
    exact hinv p (remove_outdated_go_subset now2 ttl c.m_data p hp)
  · intro p hp
    exact absurd hp (List.not_mem_nil p)

theorem cache_operations_preserve_nonempty_witness :
    cache_no_empty_addresses
      (local_cache_t.add_records ⟨[]⟩ "example.test" [address_t.v4 1] 5)
    ∧ cache_no_empty_addresses
        ((local_cache_t.remove_outdated_records ⟨[]⟩ 30 30).1)
    ∧ cache_no_empty_addresses (local_cache_t.clear ⟨[]⟩) := by
  exact cache_operations_preserve_nonempty ⟨[]⟩ "example.test"
    [address_t.v4 1] 5 30 30
    (fun p hp => absurd hp (List.not_mem_nil p))
    (by decide)

/-- C10: `local_cache_t::resolve` never inspects an entry's creation time
— the lookup result is unchanged under arbitrary rewriting of every
`m_created_at`; an entry that has become outdated is only dropped by
`remove_outdated_records` (shown for any outdated looked-up entry of a
cache with unique keys); and a lookup that succeeds is counted as a cache
hit by the agent. -/
theorem resolve_ignores_created_at (c : local_cache_t) (name : String)
    (v : ip_version_t) (f : String → Nat → Nat) :
    local_cache_t.resolve (set_created_at f c) name v
      = local_cache_t.resolve c name v
    ∧ (∀ now ttl info, (c.m_data.map Prod.fst).Nodup →
        alist_lookup name c.m_data = some info →
        info.is_outdated now ttl = true →
        alist_lookup name
          ((c.remove_outdated_records now ttl).1).m_data = none)
    ∧ (∀ (s : a_dns_resolver_t) (msg : resolve_request_t)
          (address : address_t),
        s.m_cache.resolve msg.m_name msg.m_ip_version = some address →
        (s.on_resolve msg).1.m_dns_stats.m_dns_cache_hits
          = s.m_dns_stats.m_dns_cache_hits + 1) := by
  refine ⟨?_, ?_, ?_⟩
  · simp only [local_cache_t.resolve, set_created_at,
      alist_lookup_map_created_at]
    cases alist_lookup name c.m_data with
    | none => rfl
    | some info => rfl
  · intro now ttl info hnodup hfound hout
    exact alist_lookup_remove_outdated_removes now ttl name info
      c.m_data hnodup hfound hout
  · intro s msg address h
    simp [a_dns_resolver_t.on_resolve, h]

theorem resolve_ignores_created_at_witness :
    local_cache_t.resolve
        (set_created_at (fun _ t => t + 100)
          ⟨[("example.test",
             { m_addresses := [address_t.v4 1], m_created_at := 0 })]⟩)
        "example.test" .ip_v4
      = local_cache_t.resolve
          ⟨[("example.test",
             { m_addresses := [address_t.v4 1], m_created_at := 0 })]⟩
          "example.test" .ip_v4
    ∧ alist_lookup "example.test"
        ((local_cache_t.remove_outdated_records
            ⟨[("example.test",
               { m_addresses := [address_t.v4 1], m_created_at := 0 })]⟩
            30 30).1).m_data = none
    ∧ ((({ m_cache :=
             ⟨[("example.test",
                { m_addresses := [address_t.v4 1], m_created_at := 0 })]⟩,
           m_waiting_forward_requests := [],
           m_in_flight := [],
           m_dns_stats :=
             { m_dns_cache_hits := 0, m_dns_successful_lookups := 0,
               m_dns_failed_lookups := 0 } }
             : a_dns_resolver_t).on_resolve
            { m_req_id := 1, m_name := "example.test",
              m_ip_version := .ip_v4, m_reply_to := 0,
              m_completion_token := 0 }).1.m_dns_stats.m_dns_cache_hits
         = 0 + 1) := by
  have h := resolve_ignores_created_at
    ⟨[("example.test",
       { m_addresses := [address_t.v4 1], m_created_at := 0 })]⟩
    "example.test" .ip_v4 (fun _ t => t + 100)
  exact ⟨h.1,
    h.2.1 30 30 { m_addresses := [address_t.v4 1], m_created_at := 0 }
      (by decide) (by decide) (by decide),
    h.2.2 _ _ (address_t.v4 1) (by decide)⟩

/-! Helper lemmas about the waiting list of the resolver agent. -/

theorem alist_lookup_erase_self {β : Type} (key : String)
    (l : List (String × β)) :
    alist_lookup key (alist_erase key l) = none := by
  induction l with
  | nil => rfl
  | cons hd tl ih =>
    obtain ⟨k, v⟩ := hd
    by_cases hk : k = key
    · rw [alist_erase, if_pos hk]
      exact ih
    · rw [alist_erase, if_neg hk, alist_lookup, if_neg hk]
      exact ih

theorem alist_lookup_erase_ne {β : Type} (key k : String)
    (l : List (String × β)) (h : k ≠ key) :
    alist_lookup k (alist_erase key l) = alist_lookup k l := by
  induction l with
  | nil => rfl
  | cons hd tl ih =>
    obtain ⟨k1, v⟩ := hd
    by_cases hk1 : k1 = key
    · have hk1k : ¬ k1 = k := fun he => h (he.symm.trans hk1)
      rw [alist_erase, if_pos hk1]
      rw [show alist_lookup k ((k1, v) :: tl)
            = alist_lookup k tl from by rw [alist_lookup, if_neg hk1k]]
      exact ih
    · rw [alist_erase, if_neg hk1]
      by_cases hk1k : k1 = k
      · rw [alist_lookup, if_pos hk1k, alist_lookup, if_pos hk1k]
      · rw [alist_lookup, if_neg hk1k, alist_lookup, if_neg hk1k]
        exact ih

theorem waiting_add_request_snd (name : String) (req : resolve_request_t)
    (l : List (String × List resolve_request_t)) :
    (waiting_add_request name req l).2 = (alist_lookup name l).isNone := by
  induction l with
  | nil => rfl
  | cons hd tl ih =>
    obtain ⟨n, reqs⟩ := hd
    by_cases hn : n = name
    · simp [waiting_add_request, alist_lookup, hn]
    · simp only [waiting_add_request, if_neg hn, alist_lookup]
      exact ih

theorem waiting_add_request_lookup_self (name : String)
    (req : resolve_request_t)
    (l : List (String × List resolve_request_t)) :
    alist_lookup name (waiting_add_request name req l).1
      = some ((alist_lookup name l).getD [] ++ [req]) := by
  induction l with
  | nil => simp [waiting_add_request, alist_lookup]
  | cons hd tl ih =>
    obtain ⟨n, reqs⟩ := hd
    by_cases hn : n = name
    · simp [waiting_add_request, alist_lookup, hn]
    · simp only [waiting_add_request, if_neg hn]
      rw [alist_lookup, if_neg hn, alist_lookup, if_neg hn]
      exact ih

theorem waiting_add_request_lookup_ne (name k : String)
    (req : resolve_request_t) (h : k ≠ name)
    (l : List (String × List resolve_request_t)) :
    alist_lookup k (waiting_add_request name req l).1
      = alist_lookup k l := by
  induction l with
  | nil =>
    have hk : ¬ name = k := fun he => h he.symm
    simp [waiting_add_request, alist_lookup, hk]
  | cons hd tl ih =>
    obtain ⟨n, reqs⟩ := hd
    by_cases hn : n = name
    · have hnk : ¬ n = k := fun he => h (he.symm.trans hn)
      simp only [waiting_add_request, if_pos hn]
      rw [alist_lookup, if_neg hnk, alist_lookup, if_neg hnk]
    · simp only [waiting_add_request, if_neg hn]
      by_cases hnk : n = k
      · rw [alist_lookup, if_pos hnk, alist_lookup, if_pos hnk]
      · rw [alist_lookup, if_neg hnk, alist_lookup, if_neg hnk]
        exact ih

theorem waiting_inv_after_drain (name : String)
    (mk : resolve_request_t → resolve_reply_t)
    (w : List (String × List resolve_request_t)) (fl : List String)
    (hnd : fl.Nodup)
    (hiff : ∀ n, n ∈ fl ↔ (alist_lookup n w).isSome = true) :
    (fl.filter (fun n => n != name)).Nodup
    ∧ ∀ n, n ∈ fl.filter (fun n => n != name) ↔
        (alist_lookup n (waiting_handle_requests name mk w).1).isSome
          = true := by
  constructor
  · exact hnd.filter _
  · intro n
    by_cases hn : n = name
    · subst hn
      constructor
      · intro hmem
        have := (List.mem_filter.mp hmem).2
        simp at this
      · intro hsome
        exfalso
        unfold waiting_handle_requests at hsome
        cases hlook : alist_lookup n w with
        | some reqs =>
          rw [hlook] at hsome
          simp only [alist_lookup_erase_self] at hsome
          exact absurd hsome (by simp)
        | none =>
          rw [hlook] at hsome
          simp only [hlook] at hsome
          exact absurd hsome (by simp)
    · have hfilter : n ∈ fl.filter (fun n => n != name) ↔ n ∈ fl := by
        rw [List.mem_filter]
        simp [hn]
      rw [hfilter, hiff n]
      unfold waiting_handle_requests
      cases hlook : alist_lookup name w with
      | some reqs =>
        simp only []
        rw [alist_lookup_erase_ne name n w hn]
      | none => simp only []

/-- C2: one dispatcher step of the resolver agent preserves the coalescing
invariant (no hostname has two outstanding system resolutions, and a
hostname is in flight exactly when it has waiters); a cache-missing
request for a name already waiting is appended to that name's list without
issuing a new resolution; a cache-missing request that is the first
waiter is the only event that issues a resolution; and a completion
answers the waiters of its name in arrival order in a single fan-out,
dropping the waiting entry and the in-flight mark. -/
theorem dns_resolver_coalescing (s : a_dns_resolver_t) (e : dns_event_t)
    (hinv : waiting_inv s) :
    waiting_inv (dns_step s e).1
    ∧ (∀ req reqs, e = .resolve_request_ev req →
        s.m_cache.resolve req.m_name req.m_ip_version = none →
        alist_lookup req.m_name s.m_waiting_forward_requests = some reqs →
        (dns_step s e).1.m_in_flight = s.m_in_flight
        ∧ alist_lookup req.m_name
            (dns_step s e).1.m_waiting_forward_requests
          = some (reqs ++ [req]))
    ∧ (∀ req, e = .resolve_request_ev req →
        s.m_cache.resolve req.m_name req.m_ip_version = none →
        alist_lookup req.m_name s.m_waiting_forward_requests = none →
        (dns_step s e).1.m_in_flight = req.m_name :: s.m_in_flight
        ∧ alist_lookup req.m_name
            (dns_step s e).1.m_waiting_forward_requests = some [req])
    ∧ (∀ name outcome now reqs,
        e = .resolve_completion_ev name outcome now →
        alist_lookup name s.m_waiting_forward_requests = some reqs →
        (dns_step s e).2 = reqs.map (dns_answer_fn outcome)
        ∧ alist_lookup name
            (dns_step s e).1.m_waiting_forward_requests = none
        ∧ name ∉ (dns_step s e).1.m_in_flight) := by
  obtain ⟨hnd, hiff⟩ := hinv
  refine ⟨?_, ?_, ?_, ?_⟩
  · -- invariant preservation
    cases e with
    | resolve_request_ev req =>
      simp only [dns_step, a_dns_resolver_t.on_resolve]
      cases hres : s.m_cache.resolve req.m_name req.m_ip_version with
      | some address => exact ⟨hnd, hiff⟩
      | none =>
        simp only [a_dns_resolver_t.add_to_waiting_and_resolve,
          waiting_add_request_snd]
        cases hlook :
            alist_lookup req.m_name s.m_waiting_forward_requests with
        | none =>
          simp only [Option.isNone_none, if_pos]
          have hnotin : req.m_name ∉ s.m_in_flight := by
            intro hmem
            have := (hiff req.m_name).mp hmem
            rw [hlook] at this
            exact absurd this (by simp)
          refine ⟨List.nodup_cons.mpr ⟨hnotin, hnd⟩, ?_⟩
          intro n
          by_cases hn : n = req.m_name
          · subst hn
            simp only [List.mem_cons, true_or, true_iff]
            rw [waiting_add_request_lookup_self]
            rfl
          · constructor
            · intro hmem
              rcases List.mem_cons.mp hmem with h1 | h2
              · exact absurd h1 hn
              · rw [waiting_add_request_lookup_ne _ _ _ hn]
                exact (hiff n).mp h2
            · intro hsome
              rw [waiting_add_request_lookup_ne _ _ _ hn] at hsome
              exact List.mem_cons_of_mem _ ((hiff n).mpr hsome)
        | some reqs =>
          simp only [Option.isNone_some, Bool.false_eq_true, if_false]
          refine ⟨hnd, ?_⟩
          intro n
          by_cases hn : n = req.m_name
          · subst hn
            rw [waiting_add_request_lookup_self]
            simp only [Option.isSome_some, iff_true]
            exact (hiff req.m_name).mpr (by rw [hlook]; rfl)
          · rw [waiting_add_request_lookup_ne _ _ _ hn]
            exact hiff n
    | resolve_completion_ev name outcome now =>
      cases outcome with
      | ok results =>
        simp only [dns_step, a_dns_resolver_t.handle_resolve_result]
        exact waiting_inv_after_drain name (reply_for_request results)
          s.m_waiting_forward_requests s.m_in_flight hnd hiff
      | error ec_value =>
        simp only [dns_step, a_dns_resolver_t.handle_resolve_result]
        exact waiting_inv_after_drain name _
          s.m_waiting_forward_requests s.m_in_flight hnd hiff
  · -- arriving while in flight: appended, no new resolution
    intro req reqs he hres hlook
    subst he
    simp only [dns_step, a_dns_resolver_t.on_resolve, hres,
      a_dns_resolver_t.add_to_waiting_and_resolve,
      waiting_add_request_snd, hlook, Option.isNone_some,
      Bool.false_eq_true, if_false]
    refine ⟨by trivial, ?_⟩
    rw [waiting_add_request_lookup_self, hlook]
    rfl
  · -- first waiter: resolution issued
    intro req he hres hlook
    subst he
    simp only [dns_step, a_dns_resolver_t.on_resolve, hres,
      a_dns_resolver_t.add_to_waiting_and_resolve,
      waiting_add_request_snd, hlook, Option.isNone_none, if_pos]
    refine ⟨by trivial, ?_⟩
    rw [waiting_add_request_lookup_self, hlook]
    rfl
  · -- completion fan-out
    intro name outcome now reqs he hlook
    subst he
    cases outcome with
    | ok results =>
      simp only [dns_step, a_dns_resolver_t.handle_resolve_result,
        waiting_handle_requests, hlook]
      refine ⟨by trivial, alist_lookup_erase_self _ _, ?_⟩
      intro hmem
      have := (List.mem_filter.mp hmem).2
      simp at this
    | error ec_value =>
      simp only [dns_step, a_dns_resolver_t.handle_resolve_result,
        waiting_handle_requests, hlook]
      refine ⟨by trivial, alist_lookup_erase_self _ _, ?_⟩
      intro hmem
      have := (List.mem_filter.mp hmem).2
      simp at this

theorem dns_resolver_coalescing_witness :
    waiting_inv
      (dns_step
        { m_cache := ⟨[]⟩, m_waiting_forward_requests := [],
          m_in_flight := [],
          m_dns_stats :=
            { m_dns_cache_hits := 0, m_dns_successful_lookups := 0,
              m_dns_failed_lookups := 0 } }
        (.resolve_request_ev
          { m_req_id := 1, m_name := "example.test",
            m_ip_version := .ip_v4, m_reply_to := 0,
            m_completion_token := 0 })).1
    ∧ (dns_step
        { m_cache := ⟨[]⟩, m_waiting_forward_requests := [],
          m_in_flight := [],
          m_dns_stats :=
            { m_dns_cache_hits := 0, m_dns_successful_lookups := 0,
              m_dns_failed_lookups := 0 } }
        (.resolve_request_ev
          { m_req_id := 1, m_name := "example.test",
            m_ip_version := .ip_v4, m_reply_to := 0,
            m_completion_token := 0 })).1.m_in_flight
      = ["example.test"] := by
  have h := dns_resolver_coalescing
    { m_cache := ⟨[]⟩, m_waiting_forward_requests := [],
      m_in_flight := [],
      m_dns_stats :=
        { m_dns_cache_hits := 0, m_dns_successful_lookups := 0,
          m_dns_failed_lookups := 0 } }
    (.resolve_request_ev
      { m_req_id := 1, m_name := "example.test",
        m_ip_version := .ip_v4, m_reply_to := 0,
        m_completion_token := 0 })
    ⟨List.nodup_nil, fun name => by simp [alist_lookup]⟩
  exact ⟨h.1, (h.2.2.1 _ rfl rfl rfl).1⟩

end Arataga
